import Mathlib

set_option maxRecDepth 100000

/-!
Verification of the news-bot pipeline (EventRegistry fetch → Gemini rewrite →
Markdown persist → GitHub issue report) against its specification.

Python strings are modelled as `List Char`; `str.find`, slicing, `strip`,
`startswith` and membership are given explicit executable models below.
Remote calls (EventRegistry, Gemini, GitHub, the filesystem) are modelled by
explicit outcome parameters: a function that in Python could raise is embedded
as a total function over an `Except`/`Bool` outcome describing what the remote
side did.
-/

/-- Characters treated as whitespace by `str.strip()` (the ASCII subset that
occurs in this program's data). -/

def pyWs (c : Char) : Bool := c = ' ' || c = '\t' || c = '\n' || c = '\r'

/-- Model of Python `s.strip()`: drop whitespace from both ends. -/

def pyStrip (s : List Char) : List Char :=
  ((s.dropWhile pyWs).reverse.dropWhile pyWs).reverse

/-- Model of the Python slice `s[a:b]` for nonnegative bounds. -/

def pySlice (s : List Char) (a b : Nat) : List Char := (s.take b).drop a

/-- `occursAt s pat i` holds when `pat` occurs in `s` starting at index `i`. -/

def occursAt (s pat : List Char) (i : Nat) : Bool := pat.isPrefixOf (s.drop i)

/-- Scan indices `i, i+1, …` (at most `fuel` of them) for the first occurrence
of `pat` in `s`. -/

def scanFirst (s pat : List Char) : Nat → Nat → Option Nat
  | _, 0 => none
  | i, fuel+1 => if occursAt s pat i then some i else scanFirst s pat (i+1) (fuel)

/-- Model of Python `s.find(pat, start)`: index of the first occurrence of
`pat` in `s` at or after `start`, `none` when there is none (Python's `-1`). -/

def findFrom (s pat : List Char) (start : Nat) : Option Nat :=
  scanFirst s pat start (s.length + 1 - start)

/-- The four recognized section markers of the marker-delimited strategy
(`news_bot_clean.py`, `NewsBot._extract_section`). -/

def markers : List (List Char) :=
  ["HEADLINE:".toList, "LEAD:".toList, "BODY:".toList, "CONCLUSION:".toList]

/-- The loop of `_extract_section` that computes `next_marker_pos`: starting
from `acc = len(content)`, take the minimum over the first occurrence (from
`start`) of every recognized marker other than `marker` itself. -/

def nextMarkerLoop (content marker : List Char) (start : Nat) :
    List (List Char) → Nat → Nat
  | [], acc => acc
  | m :: ms, acc =>
    nextMarkerLoop content marker start ms
      (if m ≠ marker then
        match findFrom content m start with
        | some pos => if pos < acc then pos else acc
        | none => acc
      else acc)

/-- Embeds `NewsBot._extract_section` from `examples/news_bot_clean.py`
(lines 162–182): if `marker` occurs in `content`, return the stripped slice
from just after its first occurrence up to the first `"\n\n"` after it, or —
when no `"\n\n"` follows — up to the position of the nearest other recognized
marker (or the end of the content); return `""` when `marker` is absent. -/

def extract_section (content marker : List Char) : List Char :=
  match findFrom content marker 0 with
  | none => []
  | some idx =>
    let start := idx + marker.length
    match findFrom content ['\n', '\n'] start with
    | some e => pyStrip (pySlice content start e)
    | none =>
      pyStrip (pySlice content start (nextMarkerLoop content marker start markers content.length))

/-- `firstOccFrom s pat start i` says `i` is the first index at or after
`start` where `pat` occurs in `s` — the declarative meaning of Python
`s.find(pat, start)` succeeding with `i`. -/

def firstOccFrom (s pat : List Char) (start i : Nat) : Prop :=
  start ≤ i ∧ occursAt s pat i = true ∧
    ∀ j, start ≤ j → j < i → occursAt s pat j = false

/-- Declarative description of the `next_marker_pos` the loop in
`_extract_section` computes: a position bounded by the content length, equal
to the content length or to an occurrence of another recognized marker, and no
larger than any occurrence of another recognized marker at or after `start`. -/

def nextMarkerSpec (content marker : List Char) (start p : Nat) : Prop :=
  p ≤ content.length ∧
  (p = content.length ∨
    ∃ m ∈ markers, m ≠ marker ∧ start ≤ p ∧ occursAt content m p = true) ∧
  (∀ m ∈ markers, m ≠ marker → ∀ j, start ≤ j → occursAt content m j = true → p ≤ j)

/-! ## Filename sanitization (C9) -/

/-- Characters kept by the filename filter:
`c.isalnum() or c in (' ', '-', '_')` (ASCII alphanumerics in this data). -/

def keepChar (c : Char) : Bool := c.isAlphanum || c = ' ' || c = '-' || c = '_'

/-- The filename character-filtering step of `news_bot_clean.py` `save_article`
(line 193) and `news_bot_action.py` `save_article_to_markdown` (183–184):
`"".join(c for c in title if c.isalnum() or c in (' ', '-', '_')).strip()[:50]`. -/

def safe_filter (s : List Char) : List Char := (pyStrip (s.filter keepChar)).take 50

/-- The filename character-filtering step of `src/news_bot.py` `save_article`
(lines 241–242): join-filter, strip, then `.replace(' ', '_')[:50]`. -/

def safe_filter_nb (s : List Char) : List Char :=
  ((pyStrip (s.filter keepChar)).map (fun c => if c = ' ' then '_' else c)).take 50

/-! ## Orchestrator runs (C3, C4, C5) -/

/-- Environment outcome of processing one fetched article in the clean bot's
main loop: whether `generate_article` returned without an "error" key, and
whether the subsequent file write succeeded. -/

structure ArticleOutcome where
  genOk : Bool
  saveOk : Bool
deriving DecidableEq

/-- `successful_articles` of `create_summary_report` (news_bot_clean.py 239):
fetched articles whose generation result has no "error" key. -/

def successful_articles (outs : List ArticleOutcome) : Nat :=
  (outs.filter (fun o => o.genOk)).length

/-- `failed_articles` of `create_summary_report` (news_bot_clean.py 240). -/

def failed_articles (outs : List ArticleOutcome) : Nat :=
  (outs.filter (fun o => !o.genOk)).length

/-- The `saved_files` list accumulated by `NewsBot.run` (news_bot_clean.py
279–283), with files identified by the article's position in fetch order: a
position enters the list when generation succeeded and `save_article`
returned a nonempty filename (i.e. the write succeeded). -/

def saved_files : Nat → List ArticleOutcome → List Nat
  | _, [] => []
  | i, o :: rest =>
    if o.genOk && o.saveOk then i :: saved_files (i + 1) rest
    else saved_files (i + 1) rest

/-- Result of `NewsBot.run` in `news_bot_clean.py`: the error dictionary when
zero articles were fetched (line 260–266), otherwise the summary report. -/

inductive RunResult
  | errorResult
  | report (total successCount failureCount : Nat) (files : List Nat)
deriving DecidableEq

/-- Embeds `NewsBot.run` (news_bot_clean.py 245–306), abstracted over the
per-article environment outcomes, one per fetched article in fetch order. -/

def runClean (outs : List ArticleOutcome) : RunResult :=
  if outs.isEmpty then .errorResult
  else .report outs.length (successful_articles outs) (failed_articles outs)
    (saved_files 1 outs)

/-- Exit code of `main` in `news_bot_clean.py` (325–339): `sys.exit(1)`
exactly when the run result carries an "error" key — which `run` only
produces when zero articles were fetched. -/

def mainExitClean (outs : List ArticleOutcome) : Nat :=
  match runClean outs with
  | .errorResult => 1
  | .report _ _ _ _ => 0

/-- The `generated_files` list of `main` in `src/news_bot.py` (414–419):
positions of the articles whose generation returned a result (each such
article is saved unconditionally). -/

def generated_files_nb : Nat → List Bool → List Nat
  | _, [] => []
  | i, b :: rest =>
    if b then i :: generated_files_nb (i + 1) rest
    else generated_files_nb (i + 1) rest

/-- Exit code of `main` in `src/news_bot.py` (408–423): `sys.exit(1)` when
zero articles were fetched, and again when `generated_files` is empty. -/

def mainExitNB (gens : List Bool) : Nat :=
  if gens.isEmpty then 1
  else if (generated_files_nb 0 gens).isEmpty then 1 else 0

/-- Observable events of one orchestrator run. -/

inductive Ev
  | gen
  | save
  | sleep (seconds : Nat)
  | crash
deriving DecidableEq

/-- Event trace of the clean bot's per-article loop (news_bot_clean.py
272–286): generate, save on success, then `time.sleep(2)` unconditionally. -/

def cleanTrace (outs : List ArticleOutcome) : List Ev :=
  outs.flatMap (fun o => Ev.gen :: (if o.genOk then [Ev.save] else []) ++ [Ev.sleep 2])

/-- Event trace of the generate-and-save loop of `main` in `src/news_bot.py`
(414–419): generate, save on success — and no sleep anywhere (the module does
not even import `time`). -/

def nbTrace (gens : List Bool) : List Ev :=
  gens.flatMap (fun b => Ev.gen :: (if b then [Ev.save] else []))

/-- One article loop of `main` in `news_bot_action.py` (261–276, 283–299):
per article, generate; a successful generation calls
`save_article_to_markdown`, which raises NameError (see
`save_article_to_markdown`), aborting the process before the sleep — modelled
by a `crash` event and a `true` crashed-flag; after a failed generation the
loop prints the error and sleeps 2. -/

def actionLoop : List Bool → List Ev × Bool
  | [] => ([], false)
  | b :: rest =>
    if b then ([Ev.gen, Ev.crash], true)
    else
      let r := actionLoop rest
      (Ev.gen :: Ev.sleep 2 :: r.1, r.2)

/-- Event trace of `main` in `news_bot_action.py`: the keyword loop, then —
unless it crashed — the category loop. -/

def actionTrace (ks cs : List Bool) : List Ev :=
  let r1 := actionLoop ks
  if r1.2 then r1.1 else r1.1 ++ (actionLoop cs).1

/-- Generation calls and sleeps, the events the rate-limit claim is about. -/

def isGenOrSleep : Ev → Bool
  | .gen => true
  | .sleep _ => true
  | _ => false

/-! ## Fetching news (C6) -/

/-- A raw article record as assembled by the fetch functions. -/

structure RawArticle where
  title : List Char := []
  body : List Char := []
  url : List Char := []
  date : List Char := []
  source : List Char := []
  authors : List (List Char) := []
  categories : List (List Char) := []
deriving DecidableEq

/-- Embeds `NewsBot.fetch_news` of `news_bot_clean.py` (31–81): on a
successful remote query, collect the projected results up to `maxArticles`
(the loop breaks at the cap); any raised exception is caught and yields `[]`
(lines 79–81). The embedding is a total function: no exception escapes. -/

def fetch_news_clean (maxArticles : Nat)
    (remote : Except (List Char) (List RawArticle)) : List RawArticle :=
  match remote with
  | .ok arts => arts.take maxArticles
  | .error _ => []

/-- Embeds `fetch_news_articles` of
`clean_functional_news_bot_with_issues_backup.py` (50–86): same structure and
same catch-all returning `[]` (lines 84–86). -/

def fetch_news_articles (maxArticles : Nat)
    (remote : Except (List Char) (List RawArticle)) : List RawArticle :=
  match remote with
  | .ok arts => arts.take maxArticles
  | .error _ => []

/-- Per-article projection of `src/news_bot.py` `fetch_news` (94–101): strip
the title, strip and truncate the body to 2000 characters. -/

def transformNB (a : RawArticle) : RawArticle :=
  { a with title := pyStrip a.title, body := (pyStrip a.body).take 2000 }

/-- Result assembly of `src/news_bot.py` `fetch_news` (89–104): keep records
with nonempty body and title, project them, stop at `maxArticles`. -/

def processNB (arts : List RawArticle) (maxArticles : Nat) : List RawArticle :=
  ((arts.filter (fun a => !a.body.isEmpty && !a.title.isEmpty)).map transformNB).take
    maxArticles

/-- Per-article projection of `_fetch_news_fallback` (142–149): like
`transformNB` but with authors dropped. -/

def transformFB (a : RawArticle) : RawArticle :=
  { a with title := pyStrip a.title, body := (pyStrip a.body).take 2000, authors := [] }

/-- Result assembly of `_fetch_news_fallback` (139–149): no cap in the loop. -/

def processFB (arts : List RawArticle) : List RawArticle :=
  (arts.filter (fun a => !a.body.isEmpty && !a.title.isEmpty)).map transformFB

/-- Embeds `NewsBot.fetch_news` of `src/news_bot.py` (41–114) together with
its `_fetch_news_fallback` (116–156): a failure of the primary query is
caught and triggers the fallback's direct query; a failure of that too is
caught and yields `[]`. Both bodies are fully wrapped in try/except, so no
exception escapes — the embedding is total. -/

def fetch_news_nb (maxArticles : Nat)
    (primary fallbackR : Except (List Char) (List RawArticle)) : List RawArticle :=
  match primary with
  | .ok arts => processNB arts maxArticles
  | .error _ =>
    match fallbackR with
    | .ok arts => processFB arts
    | .error _ => []

/-! ## Publishing the report (C7) -/

/-- The GitHub credentials pair read from the environment:
`GITHUB_TOKEN` and `GITHUB_REPOSITORY`. -/

structure GithubCreds where
  token : List Char
  repo : List Char
deriving DecidableEq

/-- One HTTP request to the issue tracker. -/

structure NetRequest where
  url : List Char
  title : List Char
  body : List Char
  labels : List (List Char)
deriving DecidableEq

/-- Python `s.split('\n')` (keeps empty segments). -/

def splitLines : List Char → List (List Char)
  | [] => [[]]
  | c :: rest =>
    match splitLines rest with
    | [] => [[]]
    | l :: ls => if c = '\n' then [] :: l :: ls else (c :: l) :: ls

/-- Model of Python `s.replace(pat, sub)` (all occurrences, left to right). -/

def pyReplaceAux (pat sub : List Char) : Nat → List Char → List Char
  | _, [] => []
  | 0, s => s
  | fuel + 1, c :: rest =>
    if pat.isPrefixOf (c :: rest) then
      sub ++ pyReplaceAux pat sub fuel ((c :: rest).drop pat.length)
    else c :: pyReplaceAux pat sub fuel rest

def pyReplace (pat sub s : List Char) : List Char :=
  if pat.isEmpty then s else pyReplaceAux pat sub s.length s

/-- Preview selection of `create_github_issue` in `src/news_bot.py`
(316–324): from the lines after the metadata block (index 8 on), keep
nonblank lines not starting with `---`, at most 10. -/

def previewLinesNB (ls : List (List Char)) : List (List Char) :=
  ((ls.drop 8).filter
    (fun l => !(pyStrip l).isEmpty && !("---".toList.isPrefixOf l))).take 10

/-- One article section of the issue body in `src/news_bot.py` (306–334):
sub-title from the first markdown heading (default `Article {i}`), then the
first 5 preview lines. -/

def issueArticleBlock (idx : Nat) (content : List Char) : List Char :=
  let ls := splitLines content
  let titleLine := match ls.find? (fun l => "# ".toList.isPrefixOf l) with
    | some l => l
    | none => "Article ".toList ++ (Nat.repr idx).toList
  let title := pyStrip (pyReplace "# ".toList [] titleLine)
  "### 📄 ".toList ++ title ++ "\n\n".toList ++
    List.intercalate ['\n'] ((previewLinesNB ls).take 5) ++
    "\n\n*[Full article available in workflow artifacts]*\n\n---\n\n".toList

def issueBlocks : Nat → List (List Char) → List Char
  | _, [] => []
  | i, c :: rest => issueArticleBlock i c ++ issueBlocks (i + 1) rest

/-- The issue body of `create_github_issue` in `src/news_bot.py` (292–347). -/

def issue_body_nb (files : List (List Char)) (keyword runNumber dateStr : List Char) :
    List Char :=
  "# 📰 AI News Bot Results\n\n**Keyword:** `".toList ++ keyword ++
  "`  \n**Run:** ".toList ++ runNumber ++
  "  \n**Articles Generated:** ".toList ++ (Nat.repr files.length).toList ++
  "  \n**Date:** ".toList ++ dateStr ++
  "  \n\n---\n\n## 📋 Generated Articles\n\n".toList ++
  issueBlocks 1 files ++
  "\n## 📊 Summary\n\n- **Search Keyword:** ".toList ++ keyword ++
  "\n- **Articles Generated:** ".toList ++ (Nat.repr files.length).toList ++
  "\n- **Workflow Run:** ".toList ++ runNumber ++
  "\n\n> 🤖 *Generated by AI News Bot using EventRegistry API + Google Gemini AI*\n".toList

/-- Embeds `NewsBot.create_github_issue` of `src/news_bot.py` (270–374):
without both `GITHUB_TOKEN` and `GITHUB_REPOSITORY` it logs a warning and
returns `False` immediately — the issue body is not even built and no network
request happens; with credentials it builds the body and POSTs once to the
repository's issues endpoint, returning `True` exactly on status 201. `files`
holds the article file contents (reads modelled as succeeding), `postStatus`
the tracker's response status. -/

def create_github_issue (creds : Option GithubCreds) (files : List (List Char))
    (keyword runNumber dateStr : List Char) (postStatus : Nat) :
    Bool × List NetRequest :=
  match creds with
  | none => (false, [])
  | some c =>
    let req : NetRequest :=
      { url := "https://api.github.com/repos/".toList ++ c.repo ++ "/issues".toList
        title := "📰 AI News: ".toList ++ keyword ++ " (Run ".toList ++ runNumber ++
          ")".toList
        body := issue_body_nb files keyword runNumber dateStr
        labels := ["ai-news-bot".toList, "automated".toList] }
    (postStatus == 201, [req])

/-- Preview selection of the backup's `create_github_issue` (233–239): from
the lines after index 8, keep nonblank lines not starting with `*`, at most 3
(the `>= 3` break sits outside the filter's `if`, which is equivalent). -/

def previewLinesBackup (ls : List (List Char)) : List (List Char) :=
  ((ls.drop 8).filter (fun l => !(pyStrip l).isEmpty &&
    !("*".toList.isPrefixOf l) && !("**".toList.isPrefixOf l))).take 3

/-- One article section of the backup's issue body (243–251). -/

def backupArticleBlock (idx : Nat) (content : List Char) : List Char :=
  let ls := splitLines content
  let titleLine := match ls.find? (fun l => "# ".toList.isPrefixOf l) with
    | some l => l
    | none => "Article ".toList ++ (Nat.repr idx).toList
  let title := pyStrip (pyReplace "# ".toList [] titleLine)
  "### 📄 ".toList ++ title ++ "\n\n".toList ++
    List.intercalate ['\n'] (previewLinesBackup ls) ++
    "...\n\n*[Full article available in workflow artifacts]*\n\n---\n\n".toList

def backupBlocks : Nat → List (List Char) → List Char
  | _, [] => []
  | i, c :: rest => backupArticleBlock i c ++ backupBlocks (i + 1) rest

/-- The issue body of `create_github_issue` in
`clean_functional_news_bot_with_issues_backup.py` (209–270). -/

def issue_body_backup (files : List (List Char))
    (keyword runNumber dateStr : List Char) : List Char :=
  "# 📰 Clean News Bot Results\n\n**Keyword:** `".toList ++ keyword ++
  "`  \n**Run:** ".toList ++ runNumber ++
  "  \n**Articles Generated:** ".toList ++ (Nat.repr files.length).toList ++
  "  \n**Date:** ".toList ++ dateStr ++
  "\n\n---\n\n## 📋 Generated Articles\n\n".toList ++
  backupBlocks 1 files ++
  "\n## 📊 Summary\n\n- **Search Keyword:** ".toList ++ keyword ++
  "\n- **Articles Generated:** ".toList ++ (Nat.repr files.length).toList ++
  "\n- **Workflow Run:** ".toList ++ runNumber ++
  "\n- **API Compliance:** 10/10 ✅\n\n> 🤖 *Generated by Clean Functional News Bot using EventRegistry API + Google Gemini AI*\n> \n> Real packages used:\n> - `eventregistry==9.1`\n> - `google-generativeai>=0.8.0`\n".toList

/-- Embeds `create_github_issue` of
`clean_functional_news_bot_with_issues_backup.py` (196–299): identical
credential gate (201–204) returning `False` with no request, then one POST. -/

def create_github_issue_backup (creds : Option GithubCreds)
    (files : List (List Char)) (keyword runNumber dateStr : List Char)
    (postStatus : Nat) : Bool × List NetRequest :=
  match creds with
  | none => (false, [])
  | some c =>
    let req : NetRequest :=
      { url := "https://api.github.com/repos/".toList ++ c.repo ++ "/issues".toList
        title := "📰 Clean News Bot: ".toList ++ keyword ++ " (Run ".toList ++
          runNumber ++ ")".toList
        body := issue_body_backup files keyword runNumber dateStr
        labels := ["news-bot".toList, "automated".toList,
          "clean-implementation".toList] }
    (postStatus == 201, [req])

/-! ## Structured-JSON response parsing (C8) -/

/-- JSON values — the subset `json.loads` returns for this program's data:
objects, arrays, strings, integers, booleans, null. Float literals are not
modelled: the parser rejects them, which only narrows the hypothesis of the
conditional preservation theorem below. -/

inductive JVal
  | str : List Char → JVal
  | num : Int → JVal
  | bool : Bool → JVal
  | null : JVal
  | arr : List JVal → JVal
  | obj : List (List Char × JVal) → JVal

/-- JSON insignificant whitespace. -/

def skipWsJ (s : List Char) : List Char :=
  s.dropWhile (fun c => c = ' ' || c = '\n' || c = '\t' || c = '\r')

/-- Parse a JSON string body (after the opening quote) up to the closing
quote, decoding the single-character escapes. -/

def parseStringBody : Nat → List Char → Option (List Char × List Char)
  | 0, _ => none
  | _, [] => none
  | fuel + 1, c :: rest =>
    if c = '"' then some ([], rest)
    else if c = '\\' then
      match rest with
      | [] => none
      | e :: rest2 =>
        let dec : Option Char :=
          if e = '"' then some '"'
          else if e = '\\' then some '\\'
          else if e = '/' then some '/'
          else if e = 'n' then some '\n'
          else if e = 't' then some '\t'
          else if e = 'r' then some '\r'
          else if e = 'b' then some (Char.ofNat 8)
          else if e = 'f' then some (Char.ofNat 12)
          else none
        match dec with
        | some d =>
          match parseStringBody fuel rest2 with
          | some (out, rem) => some (d :: out, rem)
          | none => none
        | none => none
    else
      match parseStringBody fuel rest with
      | some (out, rem) => some (c :: out, rem)
      | none => none

def digitsToNat (ds : List Char) : Nat :=
  ds.foldl (fun acc c => acc * 10 + (c.toNat - 48)) 0

/-- Parse a JSON integer (a float suffix makes the parse fail). -/

def parseNumber (s : List Char) : Option (Int × List Char) :=
  let neg : Bool := match s with | '-' :: _ => true | _ => false
  let s1 := match s with | '-' :: rest => rest | _ => s
  let ds := s1.takeWhile Char.isDigit
  let rem := s1.dropWhile Char.isDigit
  if ds.isEmpty then none
  else
    match rem with
    | '.' :: _ => none
    | 'e' :: _ => none
    | 'E' :: _ => none
    | _ =>
      let n : Int := Int.ofNat (digitsToNat ds)
      some (if neg then -n else n, rem)

mutual

/-- Recursive-descent JSON value parser (`fuel` bounds the call depth). -/
def parseVal : Nat → List Char → Option (JVal × List Char)
  | 0, _ => none
  | fuel + 1, s =>
    match skipWsJ s with
    | [] => none
    | c :: rest =>
      if c = '"' then
        match parseStringBody (fuel + 1) rest with
        | some (out, rem) => some (.str out, rem)
        | none => none
      else if c = '\x7b' then
        match skipWsJ rest with
        | '\x7d' :: rem => some (.obj [], rem)
        | s2 =>
          match parseMembers fuel s2 with
          | some (fields, rem) => some (.obj fields, rem)
          | none => none
      else if c = '[' then
        match skipWsJ rest with
        | ']' :: rem => some (.arr [], rem)
        | s2 =>
          match parseItems fuel s2 with
          | some (items, rem) => some (.arr items, rem)
          | none => none
      else if c = 't' then
        if "rue".toList.isPrefixOf rest then some (.bool true, rest.drop 3) else none
      else if c = 'f' then
        if "alse".toList.isPrefixOf rest then some (.bool false, rest.drop 4) else none
      else if c = 'n' then
        if "ull".toList.isPrefixOf rest then some (.null, rest.drop 3) else none
      else
        match parseNumber (c :: rest) with
        | some (n, rem) => some (.num n, rem)
        | none => none

/-- Parse the members of a nonempty JSON object (after the opening brace). -/
def parseMembers : Nat → List Char → Option (List (List Char × JVal) × List Char)
  | 0, _ => none
  | fuel + 1, s =>
    match skipWsJ s with
    | '"' :: rest =>
      match parseStringBody (fuel + 1) rest with
      | some (key, rem1) =>
        match skipWsJ rem1 with
        | ':' :: rem2 =>
          match parseVal fuel rem2 with
          | some (v, rem3) =>
            match skipWsJ rem3 with
            | ',' :: rem4 =>
              match parseMembers fuel rem4 with
              | some (fields, rem5) => some ((key, v) :: fields, rem5)
              | none => none
            | '\x7d' :: rem4 => some ([(key, v)], rem4)
            | _ => none
          | none => none
        | _ => none
      | none => none
    | _ => none

/-- Parse the items of a nonempty JSON array (after the opening bracket). -/
def parseItems : Nat → List Char → Option (List JVal × List Char)
  | 0, _ => none
  | fuel + 1, s =>
    match parseVal fuel s with
    | some (v, rem) =>
      match skipWsJ rem with
      | ',' :: rem2 =>
        match parseItems fuel rem2 with
        | some (items, rem3) => some (v :: items, rem3)
        | none => none
      | ']' :: rem2 => some ([v], rem2)
      | _ => none
    | none => none

end

/-- Model of `json.loads`: parse one value and require that only whitespace
remains. -/

def parseJson (s : List Char) : Option JVal :=
  match parseVal (4 * s.length + 16) s with
  | some (v, rem) => if (skipWsJ rem).isEmpty then some v else none
  | none => none

/-- The fence-stripping step of `ArticleGenerator.generate_article`
(news_bot_action.py 142–148): strip; if the text starts with "```json",
take the slice `[7:-3]` and strip again; else if it starts with "```", the
slice `[3:-3]`; else leave as is. -/

def clean_json_text (s : List Char) : List Char :=
  let t := pyStrip s
  if "```json".toList.isPrefixOf t then pyStrip ((t.take (t.length - 3)).drop 7)
  else if "```".toList.isPrefixOf t then pyStrip ((t.take (t.length - 3)).drop 3)
  else t

/-- Model of a Python dict as an association list preserving insertion order;
`dictSet` is `d[k] = v` (replace in place, else append) — the semantics of
`dict.update` per key. -/

def dictSet : List (List Char × JVal) → List Char → JVal → List (List Char × JVal)
  | [], k, v => [(k, v)]
  | p :: rest, k, v => if p.1 = k then (k, v) :: rest else p :: dictSet rest k v

def dictGet : List (List Char × JVal) → List Char → Option JVal
  | [], _ => none
  | p :: rest, k => if p.1 = k then some p.2 else dictGet rest k

/-- Python `len(s.split())`: the number of maximal whitespace-free runs. -/

def wordCountAux : List Char → Bool → Nat
  | [], _ => 0
  | c :: rest, inWord =>
    if pyWs c then wordCountAux rest false
    else (if inWord then 0 else 1) + wordCountAux rest true

def pyWordCount (s : List Char) : Nat := wordCountAux s false

/-- The metadata keys `generate_article` adds after parsing
(news_bot_action.py 163–169). -/

def addMeta (d : List (List Char × JVal)) (source url date now : List Char) :
    List (List Char × JVal) :=
  dictSet (dictSet (dictSet (dictSet d "original_source".toList (.str source))
    "original_url".toList (.str url)) "original_date".toList (.str date))
    "generated_at".toList (.str now)

/-- Embeds the response handling of `ArticleGenerator.generate_article`
(news_bot_action.py 107–175), abstracted over the remote generation call's
outcome. On a raised error: the error dictionary (line 175). On a response:
strip the code fences, try `json.loads`; on parse failure use the fixed
fallback structure (153–161) built from the cleaned text and the source
article's title and categories; then add the four metadata keys (163–169). A
parse yielding a non-object makes `article_data.update` raise AttributeError,
which the outer handler turns into the error dictionary. -/

def generate_article_action (response : Except (List Char) (List Char))
    (newsTitle : List Char) (newsCats : List (List Char))
    (source url date now : List Char) : List (List Char × JVal) :=
  match response with
  | .error e => [("error".toList, .str e)]
  | .ok text =>
    let cleaned := clean_json_text text
    match parseJson cleaned with
    | some (.obj fields) => addMeta fields source url date now
    | some _ => [("error".toList, .str "AttributeError".toList)]
    | none =>
      addMeta
        [("headline".toList, .str newsTitle),
         ("lead".toList, .str (cleaned.take 300 ++ "...".toList)),
         ("body".toList, .str cleaned),
         ("conclusion".toList, .str []),
         ("tags".toList, .arr ((newsCats.take 5).map (fun t => .str t))),
         ("word_count".toList, .num (Int.ofNat (pyWordCount cleaned)))]
        source url date now

/-- The six content fields of a rewritten article. -/

def contentKeys : List (List Char) :=
  ["headline".toList, "lead".toList, "body".toList, "conclusion".toList,
   "tags".toList, "word_count".toList]

/-- The spec's §8 example response: the six-field JSON object wrapped in
```json fences. -/

def exampleResponse : List Char :=
  "```json\n\x7b\"headline\":\"H\",\"lead\":\"L\",\"body\":\"B\",\"conclusion\":\"\",\"tags\":[\"x\"],\"word_count\":2\x7d\n```".toList

/-- The fields `json.loads` yields on the §8 example. -/

def exampleC8Fields : List (List Char × JVal) :=
  [("headline".toList, .str "H".toList), ("lead".toList, .str "L".toList),
   ("body".toList, .str "B".toList), ("conclusion".toList, .str []),
   ("tags".toList, .arr [.str "x".toList]), ("word_count".toList, .num 2)]

/-- The article dictionary the action bot builds from the §8 example. -/

def exampleC8 : List (List Char × JVal) :=
  generate_article_action (.ok exampleResponse) "Orig title".toList
    ["cat".toList] "Src".toList "http://u".toList "2025-01-01".toList
    "2025-01-01T00:00:00".toList

/-! ## Markdown rendering and persistence (C1, C10) -/

/-- Model of the article dictionary produced by `NewsBot.generate_article` in
`news_bot_clean.py` (and consumed by the save functions): a present `error`
field marks a generation failure; `none` in another field models an absent
dictionary key, read back through `.get` with the call site's default. -/

structure GenArticle where
  error : Option (List Char) := none
  headline : Option (List Char) := none
  lead : Option (List Char) := none
  body : Option (List Char) := none
  conclusion : Option (List Char) := none
  generated_at : Option (List Char) := none
  original_source : Option (List Char) := none
  original_url : Option (List Char) := none
  word_count : Option Nat := none
deriving DecidableEq

/-- The Markdown document template of `NewsBot.save_article` in
`news_bot_clean.py` (lines 198–222), byte for byte: title heading, metadata
block, `## Summary`, `## Article`, an unconditional `## Conclusion` section,
and the footer. -/

def markdown_content (a : GenArticle) : List Char :=
  "# ".toList ++ a.headline.getD "Generated Article".toList ++
  "\n\n**Generated:** ".toList ++ a.generated_at.getD "N/A".toList ++
  "  \n**Original Source:** ".toList ++ a.original_source.getD "N/A".toList ++
  "  \n**Original URL:** ".toList ++ a.original_url.getD "N/A".toList ++
  "  \n**Word Count:** ".toList ++
  (match a.word_count with
    | some n => (Nat.repr n).toList
    | none => "N/A".toList) ++
  "  \n\n---\n\n## Summary\n\n".toList ++ a.lead.getD "N/A".toList ++
  "\n\n## Article\n\n".toList ++ a.body.getD "N/A".toList ++
  "\n\n## Conclusion\n\n".toList ++ a.conclusion.getD "N/A".toList ++
  "\n\n---\n\n*Generated by News Bot using EventRegistry API and Google Gemini AI*\n".toList

/-- Boolean substring test (`pat in s` in Python). -/

def containsSub (s pat : List Char) : Bool := (findFrom s pat 0).isSome

/-- Embeds `NewsBot.save_article` from `news_bot_clean.py` (lines 184–231).
Returns the filename the function returns (`""` for a failure article or a
failed write) together with the list of `(filename, contents)` filesystem
writes performed. `fname` is the optional explicit `filename` argument (an
empty string is falsy, so it also triggers derivation), `now` the
`%Y%m%d_%H%M%S` timestamp, `writeOk` whether `open`/`write` succeeds. -/

def save_article (a : GenArticle) (fname : Option (List Char)) (now : List Char)
    (writeOk : Bool) : List Char × List (List Char × List Char) :=
  if a.error.isSome then ([], [])
  else
    let derived := safe_filter (a.headline.getD "article".toList) ++
      '_' :: now ++ ".md".toList
    let filename := match fname with
      | some f => if f.isEmpty then derived else f
      | none => derived
    if writeOk then (filename, [(filename, markdown_content a)])
    else ([], [])

/-- Python-level error raised while building a string. -/

inductive PyError
  | nameError
deriving DecidableEq

/-- Embeds `save_article_to_markdown` from `news_bot_action.py` (lines
177–220). An article with an "error" key returns `""` without writing. For
any other article the function builds `content` as an f-string whose
replacement field `\x7bconclusion_section\x7d` (line 206) names a variable that is
never bound — the assignment intended to precompute the conclusion section
(line 189) is literal text inside the string — so evaluating the f-string
raises `NameError` before anything is written, and no handler encloses the
construction. -/

def save_article_to_markdown (a : GenArticle) :
    Except PyError (List Char × List (List Char × List Char)) :=
  if a.error.isSome then .ok ([], []) else .error .nameError

/-- Model of the article dictionary of
`clean_functional_news_bot_with_issues_backup.py` (fields headline, summary,
content, tags). -/

structure BackupArticle where
  error : Option (List Char) := none
  headline : Option (List Char) := none
  summary : Option (List Char) := none
  content : Option (List Char) := none
  tags : List (List Char) := []
  generated_at : Option (List Char) := none
  original_source : Option (List Char) := none
  original_url : Option (List Char) := none
deriving DecidableEq

/-- The Markdown template of `save_article_to_file` in
`clean_functional_news_bot_with_issues_backup.py` (lines 165–185). -/

def backup_markdown_content (a : BackupArticle) : List Char :=
  "# ".toList ++ a.headline.getD "Generated Article".toList ++
  "\n\n**Generated:** ".toList ++ a.generated_at.getD "N/A".toList ++
  "  \n**Source:** ".toList ++ a.original_source.getD "N/A".toList ++
  "  \n**Tags:** ".toList ++ List.intercalate ", ".toList a.tags ++
  "  \n\n---\n\n## Summary\n\n".toList ++ a.summary.getD "N/A".toList ++
  "\n\n## Article\n\n".toList ++ a.content.getD "N/A".toList ++
  "\n\n---\n\n*Generated by Clean Functional News Bot*  \n**Original URL:** ".toList ++
  a.original_url.getD "N/A".toList ++ "\n".toList

/-- Embeds `save_article_to_file` from
`clean_functional_news_bot_with_issues_backup.py` (lines 155–194): same
failure gate and filename derivation as the clean variant, its own template. -/

def save_article_to_file (a : BackupArticle) (fname : Option (List Char))
    (now : List Char) (writeOk : Bool) : List Char × List (List Char × List Char) :=
  if a.error.isSome then ([], [])
  else
    let derived := safe_filter (a.headline.getD "article".toList) ++
      '_' :: now ++ ".md".toList
    let filename := match fname with
      | some f => if f.isEmpty then derived else f
      | none => derived
    if writeOk then (filename, [(filename, backup_markdown_content a)])
    else ([], [])

/-- A successfully generated article whose conclusion is the empty string —
what `generate_article` produces when the CONCLUSION: marker is missing
(`conclusion or ""`). -/

def artC1 : GenArticle :=
  { error := none, headline := some "H".toList, lead := some "L".toList,
    body := some "B".toList, conclusion := some [],
    generated_at := some "T".toList, original_source := some "S".toList,
    original_url := some "U".toList, word_count := some 2 }

/-! ## Theorems -/

theorem scanFirst_some (s pat : List Char) :
    ∀ fuel i j, scanFirst s pat i fuel = some j →
      i ≤ j ∧ j < i + fuel ∧ occursAt s pat j = true ∧
        ∀ k, i ≤ k → k < j → occursAt s pat k = false := by
  intro fuel
  induction fuel with
  | zero => intro i j h; simp [scanFirst] at h
  | succ n ih =>
    intro i j h
    simp only [scanFirst] at h
    by_cases hc : occursAt s pat i = true
    · rw [if_pos hc] at h
      cases h
      exact ⟨Nat.le_refl _, by omega, hc, fun k hk1 hk2 => by omega⟩
    · rw [if_neg hc] at h
      obtain ⟨h1, h2, h3, h4⟩ := ih (i + 1) j h
      refine ⟨by omega, by omega, h3, ?_⟩
      intro k hk1 hk2
      rcases Nat.eq_or_lt_of_le hk1 with heq | hlt
      · rw [← heq]; exact Bool.not_eq_true _ ▸ (Bool.eq_false_iff.mpr (heq ▸ hc))
      · exact h4 k hlt hk2

theorem scanFirst_none (s pat : List Char) :
    ∀ fuel i, scanFirst s pat i fuel = none →
      ∀ k, i ≤ k → k < i + fuel → occursAt s pat k = false := by
  intro fuel
  induction fuel with
  | zero => intro i _ k _ hk; omega
  | succ n ih =>
    intro i h k hk1 hk2
    simp only [scanFirst] at h
    by_cases hc : occursAt s pat i = true
    · rw [if_pos hc] at h; cases h
    · rw [if_neg hc] at h
      rcases Nat.eq_or_lt_of_le hk1 with heq | hlt
      · rw [← heq]; exact Bool.eq_false_iff.mpr (heq ▸ hc)
      · exact ih (i + 1) h k hlt (by omega)

theorem occursAt_lt_length (s pat : List Char) (hp : pat ≠ []) (i : Nat)
    (h : occursAt s pat i = true) : i < s.length := by
  have hpre : pat <+: s.drop i := by
    simpa [occursAt, List.isPrefixOf_iff_prefix] using h
  have hlen : pat.length ≤ (s.drop i).length := hpre.length_le
  have hpos : 0 < pat.length := List.length_pos.mpr hp
  rw [List.length_drop] at hlen
  omega

theorem findFrom_eq_some_iff (s pat : List Char) (hp : pat ≠ []) (start i : Nat) :
    findFrom s pat start = some i ↔ firstOccFrom s pat start i := by
  constructor
  · intro h
    obtain ⟨h1, _, h3, h4⟩ := scanFirst_some s pat _ start i h
    exact ⟨h1, h3, h4⟩
  · rintro ⟨h1, h2, h3⟩
    have hi : i < s.length := occursAt_lt_length s pat hp i h2
    cases hf : findFrom s pat start with
    | none =>
      have := scanFirst_none s pat _ start hf i h1 (by omega)
      rw [this] at h2; cases h2
    | some j =>
      obtain ⟨g1, _, g3, g4⟩ := scanFirst_some s pat _ start j hf
      have hij : ¬ i < j := fun hlt => by rw [g4 i h1 hlt] at h2; cases h2
      have hji : ¬ j < i := fun hlt => by rw [h3 j g1 hlt] at g3; cases g3
      have : j = i := by omega
      rw [this]

theorem findFrom_eq_none_iff (s pat : List Char) (hp : pat ≠ []) (start : Nat) :
    findFrom s pat start = none ↔ ∀ j, start ≤ j → occursAt s pat j = false := by
  constructor
  · intro h j hj
    cases ho : occursAt s pat j with
    | false => rfl
    | true =>
      have hjl : j < s.length := occursAt_lt_length s pat hp j ho
      have := scanFirst_none s pat _ start h j hj (by omega)
      rw [this] at ho; cases ho
  · intro h
    cases hf : findFrom s pat start with
    | none => rfl
    | some j =>
      obtain ⟨g1, _, g3, _⟩ := scanFirst_some s pat _ start j hf
      rw [h j g1] at g3; cases g3

theorem nextMarkerLoop_spec (content marker : List Char) (start : Nat) :
    ∀ ms acc, (∀ m ∈ ms, m ≠ ([] : List Char)) → acc ≤ content.length →
      nextMarkerLoop content marker start ms acc ≤ acc ∧
      nextMarkerLoop content marker start ms acc ≤ content.length ∧
      (nextMarkerLoop content marker start ms acc = acc ∨
        ∃ m ∈ ms, m ≠ marker ∧ start ≤ nextMarkerLoop content marker start ms acc ∧
          occursAt content m (nextMarkerLoop content marker start ms acc) = true) ∧
      (∀ m ∈ ms, m ≠ marker → ∀ j, start ≤ j → occursAt content m j = true →
        nextMarkerLoop content marker start ms acc ≤ j) := by
  intro ms
  induction ms with
  | nil =>
    intro acc _ hacc
    refine ⟨Nat.le_refl _, hacc, Or.inl rfl, ?_⟩
    intro m hmem
    cases hmem
  | cons m ms ih =>
    intro acc hne hacc
    by_cases hmm : m ≠ marker
    · cases hf : findFrom content m start with
      | none =>
        have hocc : ∀ j, start ≤ j → occursAt content m j = false :=
          (findFrom_eq_none_iff content m (hne m (List.mem_cons_self m ms)) start).mp hf
        obtain ⟨i1, i2, i3, i4⟩ :=
          ih acc (fun x hx => hne x (List.mem_cons_of_mem m hx)) hacc
        have hstep : nextMarkerLoop content marker start (m :: ms) acc =
            nextMarkerLoop content marker start ms acc := by
          simp [nextMarkerLoop, hmm, hf]
        rw [hstep]
        refine ⟨i1, i2, ?_, ?_⟩
        · rcases i3 with h | ⟨m', hm', hm'2, hm'3, hm'4⟩
          · exact Or.inl h
          · exact Or.inr ⟨m', List.mem_cons_of_mem m hm', hm'2, hm'3, hm'4⟩
        · intro m' hm' hm'marker j hj hjo
          rcases List.mem_cons.mp hm' with rfl | hm'tail
          · rw [hocc j hj] at hjo; cases hjo
          · exact i4 m' hm'tail hm'marker j hj hjo
      | some pos =>
        obtain ⟨hp1, hp2, hp3⟩ :=
          (findFrom_eq_some_iff content m (hne m (List.mem_cons_self m ms)) start pos).mp hf
        have hposmin : ∀ j, start ≤ j → occursAt content m j = true → pos ≤ j := by
          intro j hj hjo
          by_contra hlt
          rw [hp3 j hj (by omega)] at hjo; cases hjo
        have hposlen : pos < content.length :=
          occursAt_lt_length content m (hne m (List.mem_cons_self m ms)) pos hp2
        by_cases hcmp : pos < acc
        · have hstep : nextMarkerLoop content marker start (m :: ms) acc =
              nextMarkerLoop content marker start ms pos := by
            simp [nextMarkerLoop, hmm, hf, hcmp]
          obtain ⟨i1, i2, i3, i4⟩ :=
            ih pos (fun x hx => hne x (List.mem_cons_of_mem m hx)) (by omega)
          rw [hstep]
          refine ⟨by omega, i2, ?_, ?_⟩
          · rcases i3 with h | ⟨m', hm', hm'2, hm'3, hm'4⟩
            · exact Or.inr ⟨m, List.mem_cons_self m ms, hmm, by omega, by rw [h]; exact hp2⟩
            · exact Or.inr ⟨m', List.mem_cons_of_mem m hm', hm'2, hm'3, hm'4⟩
          · intro m' hm' hm'marker j hj hjo
            rcases List.mem_cons.mp hm' with rfl | hm'tail
            · exact le_trans i1 (hposmin j hj hjo)
            · exact i4 m' hm'tail hm'marker j hj hjo
        · have hstep : nextMarkerLoop content marker start (m :: ms) acc =
              nextMarkerLoop content marker start ms acc := by
            simp [nextMarkerLoop, hmm, hf, hcmp]
          obtain ⟨i1, i2, i3, i4⟩ :=
            ih acc (fun x hx => hne x (List.mem_cons_of_mem m hx)) hacc
          rw [hstep]
          refine ⟨i1, i2, ?_, ?_⟩
          · rcases i3 with h | ⟨m', hm', hm'2, hm'3, hm'4⟩
            · exact Or.inl h
            · exact Or.inr ⟨m', List.mem_cons_of_mem m hm', hm'2, hm'3, hm'4⟩
          · intro m' hm' hm'marker j hj hjo
            rcases List.mem_cons.mp hm' with rfl | hm'tail
            · exact le_trans (le_trans i1 (by omega)) (hposmin j hj hjo)
            · exact i4 m' hm'tail hm'marker j hj hjo
    · have hstep : nextMarkerLoop content marker start (m :: ms) acc =
          nextMarkerLoop content marker start ms acc := by
        simp [nextMarkerLoop, hmm]
      obtain ⟨i1, i2, i3, i4⟩ :=
        ih acc (fun x hx => hne x (List.mem_cons_of_mem m hx)) hacc
      rw [hstep]
      refine ⟨i1, i2, ?_, ?_⟩
      · rcases i3 with h | ⟨m', hm', hm'2, hm'3, hm'4⟩
        · exact Or.inl h
        · exact Or.inr ⟨m', List.mem_cons_of_mem m hm', hm'2, hm'3, hm'4⟩
      · intro m' hm' hm'marker j hj hjo
        rcases List.mem_cons.mp hm' with rfl | hm'tail
        · exact absurd hm'marker (by simpa using hmm)
        · exact i4 m' hm'tail hm'marker j hj hjo

/-- C2 counterexample: the claim says extraction returns the trimmed substring
from just after the marker up to the next recognized marker, but on the text
`"HEADLINE: A\n\nB\nLEAD: C"` the code stops at the blank line `"\n\n"`: it
returns `"A"`, while the first occurrence of the next recognized marker
`"LEAD:"` after position 9 is at 15 and the trimmed substring up to it is
`"A\n\nB"` — a different string. -/

theorem claim_C2_counterexample :
    extract_section "HEADLINE: A\n\nB\nLEAD: C".toList "HEADLINE:".toList = "A".toList ∧
    firstOccFrom "HEADLINE: A\n\nB\nLEAD: C".toList "LEAD:".toList 9 15 ∧
    pyStrip (pySlice "HEADLINE: A\n\nB\nLEAD: C".toList 9 15) = "A\n\nB".toList ∧
    ("A".toList : List Char) ≠ "A\n\nB".toList := by
  refine ⟨by decide, ?_, by decide, by decide⟩
  exact (findFrom_eq_some_iff _ _ (by decide) 9 15).mp (by decide)

/-- C2 amended: for each of the four recognized markers, extraction returns
the empty string when the marker does not occur; when it first occurs at `i`,
the field is the whitespace-trimmed slice starting just after the marker and
ending at the first `"\n\n"` after it when one exists, and otherwise at the
least position of another recognized marker at or after the start (or the end
of the text when none occurs). -/

theorem claim_C2_theorem (content marker : List Char) (hm : marker ∈ markers) :
    ((∀ j, occursAt content marker j = false) → extract_section content marker = []) ∧
    (∀ i, firstOccFrom content marker 0 i →
      (∀ e, firstOccFrom content ['\n', '\n'] (i + marker.length) e →
        extract_section content marker =
          pyStrip (pySlice content (i + marker.length) e)) ∧
      ((∀ j, i + marker.length ≤ j → occursAt content ['\n', '\n'] j = false) →
        ∃ p, nextMarkerSpec content marker (i + marker.length) p ∧
          extract_section content marker =
            pyStrip (pySlice content (i + marker.length) p))) := by
  have hmne : marker ≠ [] := by
    simp only [markers, List.mem_cons, List.not_mem_nil, or_false] at hm
    rcases hm with rfl | rfl | rfl | rfl <;> decide
  constructor
  · intro h
    have hnone : findFrom content marker 0 = none :=
      (findFrom_eq_none_iff content marker hmne 0).mpr (fun j _ => h j)
    simp [extract_section, hnone]
  · intro i hfi
    have hsome : findFrom content marker 0 = some i :=
      (findFrom_eq_some_iff content marker hmne 0 i).mpr hfi
    constructor
    · intro e hfe
      have hesome : findFrom content ['\n', '\n'] (i + marker.length) = some e :=
        (findFrom_eq_some_iff content _ (by decide) _ e).mpr hfe
      simp [extract_section, hsome, hesome]
    · intro hnonl
      have henone : findFrom content ['\n', '\n'] (i + marker.length) = none :=
        (findFrom_eq_none_iff content _ (by decide) _).mpr hnonl
      obtain ⟨i1, i2, i3, i4⟩ := nextMarkerLoop_spec content marker (i + marker.length)
        markers content.length (by decide) (Nat.le_refl _)
      exact ⟨nextMarkerLoop content marker (i + marker.length) markers content.length,
        ⟨i2, i3, i4⟩, by simp [extract_section, hsome, henone]⟩

/-- Witness for C2: on the spec's example text, the `"LEAD:"` field is the
trimmed slice from position 17 (just after the first occurrence of `"LEAD:"`
at 12) up to the computed next-marker position. -/

theorem claim_C2_witness :
    ∃ p, nextMarkerSpec "HEADLINE: A\nLEAD: B\nBODY: C\nCONCLUSION: D".toList
        "LEAD:".toList (12 + "LEAD:".toList.length) p ∧
      extract_section "HEADLINE: A\nLEAD: B\nBODY: C\nCONCLUSION: D".toList "LEAD:".toList =
        pyStrip (pySlice "HEADLINE: A\nLEAD: B\nBODY: C\nCONCLUSION: D".toList
          (12 + "LEAD:".toList.length) p) := by
  have h := (claim_C2_theorem (String.toList "HEADLINE: A\nLEAD: B\nBODY: C\nCONCLUSION: D")
    (String.toList "LEAD:") (by decide)).2 12
    ((findFrom_eq_some_iff _ _ (by decide) 0 12).mp (by decide))
  exact h.2 ((findFrom_eq_none_iff _ _ (by decide) 17).mp (by decide))

theorem head?_dropWhile_not (p : Char → Bool) (l : List Char) :
    ∀ c, (l.dropWhile p).head? = some c → p c = false := by
  induction l with
  | nil => intro c hc; simp [List.dropWhile] at hc
  | cons a t ih =>
    intro c hc
    rw [List.dropWhile_cons] at hc
    by_cases hp : p a = true
    · rw [if_pos hp] at hc; exact ih c hc
    · rw [if_neg hp] at hc
      simp only [List.head?_cons, Option.some.injEq] at hc
      rw [← hc]
      exact Bool.eq_false_iff.mpr hp

theorem dropWhile_eq_self_of_head (p : Char → Bool) (s : List Char)
    (h : ∀ c, s.head? = some c → p c = false) : s.dropWhile p = s := by
  cases s with
  | nil => rfl
  | cons a t =>
    have ha := h a rfl
    rw [List.dropWhile_cons, if_neg (by simp [ha])]

theorem pyStrip_sublist (s : List Char) : (pyStrip s).Sublist s := by
  have h1 : (s.dropWhile pyWs).Sublist s := List.dropWhile_sublist _
  have h2 : ((s.dropWhile pyWs).reverse.dropWhile pyWs).Sublist
      (s.dropWhile pyWs).reverse := List.dropWhile_sublist _
  have h3 := h2.reverse
  rw [List.reverse_reverse] at h3
  exact h3.trans h1

theorem mem_of_mem_pyStrip {s : List Char} {a : Char} (h : a ∈ pyStrip s) : a ∈ s :=
  (pyStrip_sublist s).subset h

theorem pyStrip_eq_self (s : List Char)
    (h1 : ∀ c, s.head? = some c → pyWs c = false)
    (h2 : ∀ c, s.getLast? = some c → pyWs c = false) : pyStrip s = s := by
  have e1 : s.dropWhile pyWs = s := dropWhile_eq_self_of_head _ _ h1
  have e2 : s.reverse.dropWhile pyWs = s.reverse := by
    apply dropWhile_eq_self_of_head
    intro c hc
    rw [List.head?_reverse] at hc
    exact h2 c hc
  rw [pyStrip, e1, e2, List.reverse_reverse]

theorem getLast?_pyStrip (s : List Char) :
    ∀ c, (pyStrip s).getLast? = some c → pyWs c = false := by
  intro c hc
  rw [pyStrip, List.getLast?_reverse] at hc
  exact head?_dropWhile_not pyWs _ c hc

theorem head?_pyStrip (s : List Char) :
    ∀ c, (pyStrip s).head? = some c → pyWs c = false := by
  intro c hc
  rw [pyStrip, List.head?_reverse] at hc
  have hsuf : ((s.dropWhile pyWs).reverse.dropWhile pyWs).IsSuffix
      (s.dropWhile pyWs).reverse := List.dropWhile_suffix _
  obtain ⟨w, hw⟩ := hsuf
  have hne : (s.dropWhile pyWs).reverse.dropWhile pyWs ≠ [] := by
    intro he; rw [he] at hc; simp at hc
  have : ((s.dropWhile pyWs).reverse).getLast? = some c := by
    rw [← hw, List.getLast?_append_of_ne_nil _ hne]
    exact hc
  rw [List.getLast?_reverse] at this
  exact head?_dropWhile_not pyWs _ c this

theorem mem_of_head?_eq_some {l : List Char} {a : Char} (h : l.head? = some a) :
    a ∈ l := by
  cases l with
  | nil => simp at h
  | cons b t =>
    simp only [List.head?_cons, Option.some.injEq] at h
    rw [← h]
    exact List.mem_cons_self b t

theorem mem_of_getLast?_eq_some {l : List Char} {a : Char} (h : l.getLast? = some a) :
    a ∈ l := by
  rw [← List.head?_reverse] at h
  have := mem_of_head?_eq_some h
  simpa using this

theorem keep_ws_eq_space (c : Char) (h1 : pyWs c = true) (h2 : keepChar c = true) :
    c = ' ' := by
  by_contra hne
  have : c = '\t' ∨ c = '\n' ∨ c = '\r' := by
    simp only [pyWs, Bool.or_eq_true, decide_eq_true_eq] at h1
    tauto
  rcases this with rfl | rfl | rfl <;> exact absurd h2 (by decide)

theorem map_eq_self_of_mem {l : List Char} {f : Char → Char}
    (h : ∀ a ∈ l, f a = a) : l.map f = l := by
  induction l with
  | nil => rfl
  | cons a t ih =>
    rw [List.map_cons, h a (List.mem_cons_self a t),
      ih (fun b hb => h b (List.mem_cons_of_mem a hb))]

/-- C9 counterexample: filtering is not idempotent. On a headline of 49 `'a'`s
followed by `" b"`, the first pass keeps everything, strips nothing and trims
to 50 characters — ending in a space — so a second pass strips that trailing
space and yields a different (49-character) string. -/

theorem claim_C9_counterexample :
    safe_filter (safe_filter (List.replicate 49 'a' ++ [' ', 'b'])) ≠
      safe_filter (List.replicate 49 'a' ++ [' ', 'b']) := by decide

/-- C9 amended: the `src/news_bot.py` derivation (which replaces spaces with
underscores before trimming) is idempotent on every headline; the
`news_bot_clean.py`/`news_bot_action.py` derivation is idempotent whenever its
result does not end in a space — the only way the 50-character trim can expose
trailing whitespace that a second pass would remove. -/

theorem claim_C9_theorem :
    (∀ s, safe_filter_nb (safe_filter_nb s) = safe_filter_nb s) ∧
    (∀ s, (safe_filter s).getLast? ≠ some ' ' →
      safe_filter (safe_filter s) = safe_filter s) := by
  constructor
  · intro s
    set v := safe_filter_nb s with hv
    have hmem : ∀ a ∈ v, keepChar a = true ∧ pyWs a = false := by
      intro a ha
      rw [hv, safe_filter_nb] at ha
      have ha2 := List.mem_of_mem_take ha
      obtain ⟨b, hb, hab⟩ := List.mem_map.mp ha2
      have hbk : keepChar b = true := List.of_mem_filter (mem_of_mem_pyStrip hb)
      by_cases hsp : b = ' '
      · rw [hsp] at hab; rw [← hab]; exact ⟨by decide, by decide⟩
      · rw [if_neg hsp] at hab
        rw [← hab]
        refine ⟨hbk, ?_⟩
        cases hws : pyWs b with
        | false => rfl
        | true => exact absurd (keep_ws_eq_space b hws hbk) hsp
    have hfilter : v.filter keepChar = v :=
      List.filter_eq_self.mpr (fun a ha => (hmem a ha).1)
    have hnows : ∀ c ∈ v, pyWs c = false := fun c hc => (hmem c hc).2
    have hstrip : pyStrip (v.filter keepChar) = v := by
      rw [hfilter]
      apply pyStrip_eq_self
      · intro c hc
        exact hnows c (mem_of_head?_eq_some hc)
      · intro c hc
        exact hnows c (mem_of_getLast?_eq_some hc)
    have hmap : (pyStrip (v.filter keepChar)).map (fun c => if c = ' ' then '_' else c) = v := by
      rw [hstrip]
      apply map_eq_self_of_mem
      intro a ha
      have : a ≠ ' ' := by
        intro he; rw [he] at ha
        have := hnows ' ' ha
        exact absurd this (by decide)
      rw [if_neg this]
    rw [safe_filter_nb, hmap, hv, safe_filter_nb, List.take_take, Nat.min_self]
  · intro s hlast
    set u := safe_filter s with hu
    have hmemk : ∀ a ∈ u, keepChar a = true := by
      intro a ha
      rw [hu, safe_filter] at ha
      exact List.of_mem_filter (mem_of_mem_pyStrip (List.mem_of_mem_take ha))
    have hfilter : u.filter keepChar = u := List.filter_eq_self.mpr hmemk
    have hstrip : pyStrip (u.filter keepChar) = u := by
      rw [hfilter]
      apply pyStrip_eq_self
      · intro c hc
        rw [hu, safe_filter] at hc
        cases hps : pyStrip (List.filter keepChar s) with
        | nil => rw [hps] at hc; simp at hc
        | cons a t =>
          rw [hps] at hc
          rw [List.take_cons (by omega)] at hc
          simp only [List.head?_cons, Option.some.injEq] at hc
          apply head?_pyStrip (List.filter keepChar s)
          rw [hps, ← hc]
          rfl
      · intro c hc
        cases hws : pyWs c with
        | false => rfl
        | true =>
          have hk : keepChar c = true := hmemk c (mem_of_getLast?_eq_some hc)
          have := keep_ws_eq_space c hws hk
          rw [this] at hc
          exact absurd hc hlast
    rw [safe_filter, hstrip, hu, safe_filter, List.take_take, Nat.min_self]

/-- Witness for C9: both idempotence statements at concrete headlines. -/

theorem claim_C9_witness :
    safe_filter_nb (safe_filter_nb "AI: Breakthrough in Care".toList) =
      safe_filter_nb "AI: Breakthrough in Care".toList ∧
    safe_filter (safe_filter "AI Breakthrough".toList) =
      safe_filter "AI Breakthrough".toList :=
  ⟨claim_C9_theorem.1 _, claim_C9_theorem.2 _ (by decide)⟩

theorem success_add_failure (outs : List ArticleOutcome) :
    successful_articles outs + failed_articles outs = outs.length := by
  induction outs with
  | nil => rfl
  | cons o rest ih =>
    simp only [successful_articles, failed_articles, List.filter_cons] at ih ⊢
    cases h : o.genOk <;> simp [h] <;> omega

theorem saved_files_length_le (outs : List ArticleOutcome) :
    ∀ i, (saved_files i outs).length ≤ successful_articles outs := by
  induction outs with
  | nil => intro i; simp [saved_files, successful_articles]
  | cons o rest ih =>
    intro i
    simp only [saved_files, successful_articles, List.filter_cons]
    cases hg : o.genOk <;> cases hs : o.saveOk <;>
      simp [successful_articles] at ih ⊢ <;>
      exact Nat.le_trans (ih (i + 1)) (by omega)

theorem saved_files_length_eq (outs : List ArticleOutcome)
    (h : ∀ o ∈ outs, o.genOk = true → o.saveOk = true) :
    ∀ i, (saved_files i outs).length = successful_articles outs := by
  induction outs with
  | nil => intro i; rfl
  | cons o rest ih =>
    intro i
    have hrest := ih (fun x hx => h x (List.mem_cons_of_mem o hx))
    simp only [saved_files, successful_articles, List.filter_cons]
    cases hg : o.genOk with
    | false => simpa [successful_articles] using hrest (i + 1)
    | true =>
      have hs : o.saveOk = true := h o (List.mem_cons_self o rest) hg
      simpa [hs, successful_articles] using hrest (i + 1)

theorem generated_files_nb_nil (gens : List Bool)
    (h : ∀ b ∈ gens, b = false) : ∀ i, generated_files_nb i gens = [] := by
  induction gens with
  | nil => intro i; rfl
  | cons b rest ih =>
    intro i
    have hb : b = false := h b (List.mem_cons_self b rest)
    have hrest := ih (fun x hx => h x (List.mem_cons_of_mem b hx)) (i + 1)
    simp [generated_files_nb, hb, hrest]

/-- C3 counterexample: a clean-bot run that fetched one article whose
generation failed ends with zero successfully generated articles, yet `run`
returns a report without an "error" key and `main` exits 0 — not the nonzero
exit the claim demands for every zero-success run. -/

theorem claim_C3_counterexample :
    successful_articles [⟨false, true⟩] = 0 ∧
    mainExitClean [⟨false, true⟩] = 0 := by decide

/-- C3 amended: in `src/news_bot.py` every run with zero generated articles —
in particular every run with zero fetched articles — exits 1 having written
no article files; in `news_bot_clean.py` only the zero-fetched case exits
nonzero (a run that fetched articles but produced zero successes exits 0). -/

theorem claim_C3_theorem :
    (∀ gens : List Bool, gens.count true = 0 →
      mainExitNB gens = 1 ∧ generated_files_nb 0 gens = []) ∧
    (mainExitClean [] = 1 ∧ runClean [] = .errorResult ∧ saved_files 1 [] = []) := by
  constructor
  · intro gens h
    have hall : ∀ b ∈ gens, b = false := by
      intro b hb
      cases b with
      | false => rfl
      | true => exact absurd hb (List.count_eq_zero.mp h)
    have hnil := generated_files_nb_nil gens hall
    refine ⟨?_, hnil 0⟩
    rw [mainExitNB]
    cases gens with
    | nil => rfl
    | cons b rest => simp [hnil 0]
  · exact ⟨rfl, rfl, rfl⟩

/-- Witness for C3: a run whose only article failed to generate exits 1 in
`src/news_bot.py` with no files written. -/

theorem claim_C3_witness :
    mainExitNB [false] = 1 ∧ generated_files_nb 0 [false] = [] :=
  claim_C3_theorem.1 [false] (by decide)

/-- C4 counterexample: one fetched article, generation succeeds, the file
write fails — `successful_articles` is 1 but `saved_files` is empty, so
`len(files) == successCount` does not hold for this run. -/

theorem claim_C4_counterexample :
    successful_articles [⟨true, false⟩] = 1 ∧ saved_files 1 [⟨true, false⟩] = [] := by
  decide

/-- C4 amended: `successCount + failureCount == n` holds for every run; for
the files, `len(files) ≤ successCount` always, with equality whenever every
successfully generated article is also saved successfully (an IO failure
drops the file but the article still counts as successful). -/

theorem claim_C4_theorem (outs : List ArticleOutcome) :
    successful_articles outs + failed_articles outs = outs.length ∧
    (saved_files 1 outs).length ≤ successful_articles outs ∧
    ((∀ o ∈ outs, o.genOk = true → o.saveOk = true) →
      (saved_files 1 outs).length = successful_articles outs) :=
  ⟨success_add_failure outs, saved_files_length_le outs 1,
    fun h => saved_files_length_eq outs h 1⟩

/-- Witness for C4: a run with one saved success and one failure satisfies
`1 + 1 = 2` and `len(files) = successCount = 1`. -/

theorem claim_C4_witness :
    successful_articles [⟨true, true⟩, ⟨false, false⟩] +
      failed_articles [⟨true, true⟩, ⟨false, false⟩] = 2 ∧
    (saved_files 1 [⟨true, true⟩, ⟨false, false⟩]).length =
      successful_articles [⟨true, true⟩, ⟨false, false⟩] :=
  ⟨(claim_C4_theorem [⟨true, true⟩, ⟨false, false⟩]).1,
    (claim_C4_theorem [⟨true, true⟩, ⟨false, false⟩]).2.2 (by decide)⟩

theorem actionLoop_all_false (ks : List Bool) (h : ∀ b ∈ ks, b = false) :
    actionLoop ks = (ks.flatMap (fun _ => [Ev.gen, Ev.sleep 2]), false) := by
  induction ks with
  | nil => rfl
  | cons b rest ih =>
    have hb : b = false := h b (List.mem_cons_self b rest)
    have := ih (fun x hx => h x (List.mem_cons_of_mem b hx))
    simp [actionLoop, hb, this]

/-- C5 counterexample: in `src/news_bot.py` two consecutive successful
generation calls are separated by no sleep at all — the claimed 2-unit delay
does not exist in that variant. -/

theorem claim_C5_counterexample :
    nbTrace [true, true] = [Ev.gen, Ev.save, Ev.gen, Ev.save] ∧
    ∀ n, Ev.sleep n ∉ nbTrace [true, true] := by
  refine ⟨by decide, ?_⟩
  intro n
  simp [nbTrace]

/-- C5 amended: `news_bot_clean.py` sleeps 2 after every generation attempt,
success or failure, so the gen/sleep subtrace is exactly `[gen, sleep 2]` per
article; `src/news_bot.py` never sleeps; `news_bot_action.py` shows the same
`[gen, sleep 2]` pattern as long as every attempt fails (a successful attempt
crashes in `save_article_to_markdown` before the sleep). -/

theorem claim_C5_theorem :
    (∀ outs, (cleanTrace outs).filter isGenOrSleep =
      outs.flatMap (fun _ => [Ev.gen, Ev.sleep 2])) ∧
    (∀ gens n, Ev.sleep n ∉ nbTrace gens) ∧
    (∀ ks cs, (∀ b ∈ ks, b = false) → (∀ b ∈ cs, b = false) →
      (actionTrace ks cs).filter isGenOrSleep =
        (ks ++ cs).flatMap (fun _ => [Ev.gen, Ev.sleep 2])) := by
  refine ⟨?_, ?_, ?_⟩
  · intro outs
    induction outs with
    | nil => rfl
    | cons o rest ih =>
      cases h : o.genOk <;> simp [cleanTrace, isGenOrSleep, h] <;>
        simpa [cleanTrace] using ih
  · intro gens n
    induction gens with
    | nil => simp [nbTrace]
    | cons b rest ih =>
      intro hmem
      rw [nbTrace, List.flatMap_cons] at hmem
      rcases List.mem_append.mp hmem with h1 | h1
      · cases b <;> simp at h1
      · exact ih h1
  · intro ks cs hks hcs
    rw [actionTrace, actionLoop_all_false ks hks, actionLoop_all_false cs hcs]
    simp only [if_neg Bool.false_ne_true, List.filter_append, List.flatMap_append]
    have hfilter : ∀ l : List Bool,
        (l.flatMap (fun _ => [Ev.gen, Ev.sleep 2])).filter isGenOrSleep =
          l.flatMap (fun _ => [Ev.gen, Ev.sleep 2]) := by
      intro l
      apply List.filter_eq_self.mpr
      intro a ha
      obtain ⟨b, _, hb⟩ := List.mem_flatMap.mp ha
      simp only [List.mem_cons, List.not_mem_nil, or_false] at hb
      rcases hb with rfl | rfl <;> rfl
    rw [hfilter, hfilter]

/-- Witness for C5: concrete traces — clean with one success and one failure
sleeps after both; action with three failed attempts sleeps after each. -/

theorem claim_C5_witness :
    (cleanTrace [⟨true, true⟩, ⟨false, false⟩]).filter isGenOrSleep =
      [Ev.gen, Ev.sleep 2, Ev.gen, Ev.sleep 2] ∧
    (actionTrace [false] [false, false]).filter isGenOrSleep =
      [Ev.gen, Ev.sleep 2, Ev.gen, Ev.sleep 2, Ev.gen, Ev.sleep 2] := by
  constructor
  · simpa using claim_C5_theorem.1 [⟨true, true⟩, ⟨false, false⟩]
  · simpa using claim_C5_theorem.2.2 [false] [false, false] (by decide) (by decide)

/-- C6: when the remote search call fails with a transport or auth error,
every fetch operation returns the empty list, and — being a total function
over the remote outcome — propagates no exception to its caller. In
`src/news_bot.py` a primary failure first triggers the fallback query, so a
transport/auth failure of the service (failing both calls) yields `[]`. -/

theorem claim_C6_theorem (e e2 : List Char) (maxArticles : Nat) :
    fetch_news_clean maxArticles (.error e) = [] ∧
    fetch_news_articles maxArticles (.error e) = [] ∧
    fetch_news_nb maxArticles (.error e) (.error e2) = [] :=
  ⟨rfl, rfl, rfl⟩

/-- C7: with absent credentials both issue publishers skip — they return
`False` without performing any network request (the skip, unlike a failed
publish, emits zero requests), and the callers treat that result as
non-fatal; with credentials present each performs exactly one POST. -/

theorem claim_C7_theorem (creds : Option GithubCreds) (files : List (List Char))
    (keyword runNumber dateStr : List Char) (postStatus : Nat)
    (h : creds = none) :
    create_github_issue creds files keyword runNumber dateStr postStatus =
      (false, []) ∧
    create_github_issue_backup creds files keyword runNumber dateStr postStatus =
      (false, []) ∧
    (∀ c, (create_github_issue (some c) files keyword runNumber dateStr
      postStatus).2.length = 1) := by
  subst h
  exact ⟨rfl, rfl, fun c => rfl⟩

/-- Witness for C7: a concrete publish attempt without credentials returns
the skip outcome and issues no request. -/

theorem claim_C7_witness :
    create_github_issue none ["# T\n\nbody".toList] "ai".toList "7".toList
      "2025-01-01 00:00:00 UTC".toList 201 = (false, []) ∧
    create_github_issue_backup none ["# T\n\nbody".toList] "ai".toList "7".toList
      "2025-01-01 00:00:00 UTC".toList 201 = (false, []) := by
  have h := claim_C7_theorem none ["# T\n\nbody".toList] "ai".toList "7".toList
    "2025-01-01 00:00:00 UTC".toList 201 rfl
  exact ⟨h.1, h.2.1⟩

theorem dictGet_dictSet_ne (d : List (List Char × JVal)) (k k' : List Char)
    (v : JVal) (h : k ≠ k') : dictGet (dictSet d k' v) k = dictGet d k := by
  have h1 : ¬(k' = k) := fun he => h he.symm
  induction d with
  | nil => simp [dictSet, dictGet, h1]
  | cons p rest ih =>
    by_cases hp : p.1 = k'
    · have h2 : ¬(p.1 = k) := by rw [hp]; exact h1
      simp [dictSet, dictGet, hp, h1, h2]
    · by_cases hk : p.1 = k
      · simp [dictSet, dictGet, hp, hk, h]
      · simp [dictSet, dictGet, hp, hk, ih]

/-- C8: the structured-JSON strategy. First, fence stripping is exact: on any
response of the form ```json…``` it recovers the stripped inner text. Second,
whenever `json.loads` of the cleaned text yields an object, each of the six
content fields of the resulting article dictionary equals the corresponding
JSON field (the metadata update touches none of them). Third, on the spec's
§8 example the resulting dictionary has headline "H", lead "L", body "B",
conclusion "", tags ["x"] and word_count 2. -/

theorem claim_C8_theorem :
    (∀ inner : List Char,
      clean_json_text ("```json".toList ++ inner ++ "```".toList) = pyStrip inner) ∧
    (∀ (text : List Char) (fields : List (List Char × JVal))
      (title src url date now : List Char) (cats : List (List Char))
      (k : List Char),
      parseJson (clean_json_text text) = some (JVal.obj fields) →
      k ∈ contentKeys →
      dictGet (generate_article_action (.ok text) title cats src url date now) k =
        dictGet fields k) ∧
    (dictGet exampleC8 "headline".toList = some (.str "H".toList) ∧
     dictGet exampleC8 "lead".toList = some (.str "L".toList) ∧
     dictGet exampleC8 "body".toList = some (.str "B".toList) ∧
     dictGet exampleC8 "conclusion".toList = some (.str []) ∧
     dictGet exampleC8 "tags".toList = some (.arr [.str "x".toList]) ∧
     dictGet exampleC8 "word_count".toList = some (.num 2)) := by
  refine ⟨?_, ?_, rfl, rfl, rfl, rfl, rfl, rfl⟩
  · intro inner
    have hpre : pyStrip ("```json".toList ++ inner ++ "```".toList) =
        "```json".toList ++ inner ++ "```".toList := by
      apply pyStrip_eq_self
      · intro c hc
        have hhead : ("```json".toList ++ inner ++ "```".toList).head? = some '`' := rfl
        rw [hhead] at hc
        simp only [Option.some.injEq] at hc
        rw [← hc]
        rfl
      · intro c hc
        rw [List.getLast?_append_of_ne_nil _
          (by simp : ("```".toList : List Char) ≠ [])] at hc
        have : ("```".toList : List Char).getLast? = some '`' := rfl
        rw [this] at hc
        simp only [Option.some.injEq] at hc
        rw [← hc]
        rfl
    have hisPre : ("```json".toList).isPrefixOf
        ("```json".toList ++ inner ++ "```".toList) = true :=
      List.isPrefixOf_iff_prefix.mpr ⟨inner ++ "```".toList, by rw [List.append_assoc]⟩
    have hlen : ("```json".toList ++ inner ++ "```".toList).length - 3 =
        ("```json".toList ++ inner).length := by
      simp [List.length_append]
    have hslice : ((("```json".toList ++ inner ++ "```".toList).take
        (("```json".toList ++ inner ++ "```".toList).length - 3)).drop 7) = inner := by
      rw [hlen, List.take_left]
      have h7 : 7 = ("```json".toList : List Char).length := rfl
      rw [h7, List.drop_left]
    simp only [clean_json_text]
    rw [hpre, if_pos hisPre, hslice]
  · intro text fields title src url date now cats k hparse hk
    have hne : k ≠ "original_source".toList ∧ k ≠ "original_url".toList ∧
        k ≠ "original_date".toList ∧ k ≠ "generated_at".toList := by
      simp only [contentKeys, List.mem_cons, List.not_mem_nil, or_false] at hk
      rcases hk with rfl | rfl | rfl | rfl | rfl | rfl <;>
        exact ⟨by decide, by decide, by decide, by decide⟩
    simp only [generate_article_action]
    rw [hparse]
    show dictGet (addMeta fields src url date now) k = dictGet fields k
    rw [addMeta, dictGet_dictSet_ne _ _ _ _ hne.2.2.2,
      dictGet_dictSet_ne _ _ _ _ hne.2.2.1, dictGet_dictSet_ne _ _ _ _ hne.2.1,
      dictGet_dictSet_ne _ _ _ _ hne.1]

/-- Witness for C8: the fence lemma at a concrete inner text, and field
preservation applied to the §8 example with its parsed fields. -/

theorem claim_C8_witness :
    clean_json_text ("```json".toList ++ " \x7b\x7d ".toList ++ "```".toList) =
      pyStrip " \x7b\x7d ".toList ∧
    dictGet exampleC8 "lead".toList = dictGet exampleC8Fields "lead".toList := by
  constructor
  · exact claim_C8_theorem.1 " \x7b\x7d ".toList
  · exact claim_C8_theorem.2.1 exampleResponse exampleC8Fields "Orig title".toList
      "Src".toList "http://u".toList "2025-01-01".toList
      "2025-01-01T00:00:00".toList ["cat".toList] "lead".toList rfl
      (by simp [contentKeys])

/-- C1 (code bug): the claim says the rendered document contains no
"## Conclusion" heading when the conclusion field is empty. On a concrete
successful article with empty conclusion, the clean-variant renderer emits
the heading anyway (its template is unconditional), and the action-variant
save raises NameError on every non-failure article instead of conditionally
rendering the section. -/

theorem claim_C1_theorem :
    artC1.conclusion = some [] ∧
    containsSub (markdown_content artC1) "## Conclusion".toList = true ∧
    save_article_to_markdown artC1 = Except.error PyError.nameError := by
  refine ⟨rfl, by decide, rfl⟩

/-- C10: an article record carrying an "error" key is never persisted: all
three save operations return the empty path and perform no filesystem write
(the action variant returns `""` without reaching its faulty f-string). -/

theorem claim_C10_theorem (a : GenArticle) (b : BackupArticle)
    (fnameA fnameB : Option (List Char)) (nowA nowB : List Char)
    (wA wB : Bool) (ha : a.error.isSome) (hb : b.error.isSome) :
    save_article a fnameA nowA wA = ([], []) ∧
    save_article_to_markdown a = Except.ok ([], []) ∧
    save_article_to_file b fnameB nowB wB = ([], []) := by
  refine ⟨?_, ?_, ?_⟩
  · rw [save_article, if_pos ha]
  · rw [save_article_to_markdown, if_pos ha]
  · rw [save_article_to_file, if_pos hb]

/-- Witness for C10: a concrete quota-failure article is not persisted by any
of the three save operations. -/

theorem claim_C10_witness :
    save_article { error := some "429 quota exceeded".toList } none "20250101_000000".toList true = ([], []) ∧
    save_article_to_markdown { error := some "429 quota exceeded".toList } = Except.ok ([], []) ∧
    save_article_to_file { error := some "timeout".toList } none "20250101_000000".toList true = ([], []) :=
  claim_C10_theorem { error := some "429 quota exceeded".toList }
    { error := some "timeout".toList } none none "20250101_000000".toList
    "20250101_000000".toList true true rfl rfl
